import Mathlib

/-!
Shallow embedding of the `crates-rustdoc-gen` batch documentation generator
(`src/main.rs`), together with theorems checking the natural-language
specification against it.

External effects (git invocations, cargo invocations, file moves, the
crates.io registry query) are modelled by an explicit environment record
holding each collaborator's response, and the orchestrator is embedded as a
pure function from that environment to a trace of performed actions plus a
result.  Rust's `anyhow::Result` is embedded as `Except String`, `Option`
as `Option`, and strings as Lean `String` (`str::contains` is substring
containment over the character sequence).
-/

/-- Rust `str::contains` helper: does the haystack start with the needle? -/
def firstMatches : List Char → List Char → Bool
  | _, [] => true
  | [], _ :: _ => false
  | c :: s, p :: ps => c == p && firstMatches s ps

/-- Does the haystack (second argument) contain the needle `pat` anywhere? -/
def hasSub (pat : List Char) : List Char → Bool
  | [] => firstMatches [] pat
  | c :: rest => firstMatches (c :: rest) pat || hasSub pat rest

/-- Embedding of Rust `str::contains(&str)`: substring containment. -/
def rustContains (s pat : String) : Bool :=
  hasSub pat.data s.data

/-- Modelled from the spec: the repository-access collaborator `listTags`.
`git tag -l <name>` (with a literal, glob-free pattern, as produced from
crate names and semver version strings) prints exactly the tags whose whole
name equals the pattern, one per line, each line newline-terminated. -/
def gitTagList (tags : List String) (pat : String) : String :=
  match tags with
  | [] => ""
  | t :: rest => if t = pat then t ++ "\n" ++ gitTagList rest pat else gitTagList rest pat

/-- A healthy repository: every tag-listing query succeeds and reports the
repository's tag set. -/
def healthyTagQuery (tags : List String) : String → Except String String :=
  fun pat => Except.ok (gitTagList tags pat)

/-- A corrupted repository: every tag-listing query fails. -/
def failingTagQuery : String → Except String String :=
  fun _ => Except.error "corrupted repository"

/-- Embedding of `check_if_git_tag_exists`: run `git tag -l tag_name` in the
repository (the `runTagList` collaborator), propagate an invocation error
with `?`, and otherwise report whether the captured stdout contains
`tag_name` followed by a newline. -/
def check_if_git_tag_exists (runTagList : String → Except String String)
    (tag_name : String) : Except String Bool :=
  match runTagList tag_name with
  | Except.error e => Except.error e
  | Except.ok stdout => Except.ok (rustContains stdout (tag_name ++ "\n"))

/-- Embedding of the candidate loop in `discover_tag_format`: Rust's
`if let Ok(true)` takes a candidate only on a successful query answering
`true`; a query error or a `false` answer both fall through to the next
candidate. -/
def discoverLoop (runTagList : String → Except String String) :
    List String → Option String
  | [] => none
  | tag_name :: rest =>
    match check_if_git_tag_exists runTagList tag_name with
    | Except.ok true => some tag_name
    | _ => discoverLoop runTagList rest

/-- Embedding of `discover_tag_format`: try the four tag formats in order and
return the first that exists; `None` when none does. -/
def discover_tag_format (runTagList : String → Except String String)
    (crate_name version : String) : Option String :=
  discoverLoop runTagList
    [version, "v" ++ version, crate_name ++ "-" ++ version, crate_name ++ "-v" ++ version]

/-- Replacing a query's failure by a successful empty listing. -/
def maskTagQueryFailures (runTagList : String → Except String String) :
    String → Except String String :=
  fun pat =>
    match runTagList pat with
    | Except.error _ => Except.ok ""
    | Except.ok stdout => Except.ok stdout

/- ### Basic lemmas about substring containment -/

theorem firstMatches_append (p r : List Char) : firstMatches (p ++ r) p = true := by
  induction p with
  | nil => cases r <;> rfl
  | cons c p ih => simp [firstMatches, ih]

theorem hasSub_front (p r : List Char) : hasSub p (p ++ r) = true := by
  cases hpr : p ++ r with
  | nil =>
    rcases List.append_eq_nil.mp hpr with ⟨hp, hr⟩
    subst hp; subst hr; rfl
  | cons c s =>
    rw [hasSub, ← hpr, firstMatches_append]
    rfl

theorem hasSub_mid (a p b : List Char) : hasSub p (a ++ (p ++ b)) = true := by
  induction a with
  | nil => simpa using hasSub_front p b
  | cons c a ih => simp [hasSub, ih]

theorem hasSub_nil (p : List Char) (h : p ≠ []) : hasSub p [] = false := by
  cases p with
  | nil => exact absurd rfl h
  | cons c ps => rfl

/-- String-level form: a string that appears as an infix is contained. -/
theorem rustContains_mid (x p y : String) : rustContains (x ++ p ++ y) p = true := by
  have hdata : (x ++ p ++ y).data = x.data ++ (p.data ++ y.data) := by
    simp [String.data_append, List.append_assoc]
  simp only [rustContains, hdata]
  exact hasSub_mid x.data p.data y.data

/- ### Tag-existence against a healthy repository -/

theorem gitTagList_not_mem (tags : List String) (pat : String) (h : pat ∉ tags) :
    gitTagList tags pat = "" := by
  induction tags with
  | nil => rfl
  | cons t rest ih =>
    have hne : ¬t = pat := by
      intro he; exact h (he ▸ List.mem_cons_self t rest)
    simp [gitTagList, hne]
    exact ih (fun hm => h (List.mem_cons_of_mem t hm))

theorem check_healthy_eq (tags : List String) (t : String) :
    check_if_git_tag_exists (healthyTagQuery tags) t = Except.ok (decide (t ∈ tags)) := by
  simp only [check_if_git_tag_exists, healthyTagQuery]
  congr 1
  induction tags with
  | nil =>
    have hne : t.data ++ ['\n'] ≠ [] := by simp
    simpa [gitTagList, rustContains, String.data_append] using hasSub_nil _ hne
  | cons a rest ih =>
    by_cases ha : a = t
    · subst ha
      have h1 : rustContains (a ++ "\n" ++ gitTagList rest a) (a ++ "\n") = true := by
        simpa using rustContains_mid "" (a ++ "\n") (gitTagList rest a)
      simp [gitTagList, h1]
    · have hta : ¬t = a := fun he => ha he.symm
      simpa [gitTagList, ha, List.mem_cons, hta] using ih

/- ### Tag resolution refines first-match search -/

theorem discoverLoop_healthy (tags : List String) (cands : List String) :
    discoverLoop (healthyTagQuery tags) cands
      = cands.find? (fun t => decide (t ∈ tags)) := by
  induction cands with
  | nil => rfl
  | cons c rest ih =>
    cases h : decide (c ∈ tags) with
    | true => simp [discoverLoop, check_healthy_eq, h, List.find?]
    | false => simp [discoverLoop, check_healthy_eq, h, List.find?, ih]

/- ### Path derivation (`process_github_repo`, lines 50-58) -/

/-- Fixed local root directory, `BASE_PATH` in the source. -/
def basePath : String := "/var/tmp/crates-rustdoc-gen/"

/-- The HTTPS GitHub URL head, `GITHUB_PREFIX` in the source. -/
def githubHttpsBase : String := "https://github.com/"

/-- The SSH GitHub URL head, `GITHUB_GIT_PREFIX` in the source. -/
def githubGitBase : String := "git@github.com:"

/-- Rust `str::replace('/', "__")` at the character-list level. -/
def replaceSlashChars : List Char → List Char
  | [] => []
  | c :: rest => (if c = '/' then ['_', '_'] else [c]) ++ replaceSlashChars rest

/-- Embedding of `org_and_repo_name.replace('/', "__")`. -/
def replaceSlashes (s : String) : String :=
  ⟨replaceSlashChars s.data⟩

/-- Embedding of `crate_info.name.replace('-', "_")`. -/
def replaceDashChars : List Char → List Char
  | [] => []
  | c :: rest => (if c = '-' then '_' else c) :: replaceDashChars rest

/-- Rustdoc output filenames substitute `-` with `_` in the crate name. -/
def replaceDashes (s : String) : String :=
  ⟨replaceDashChars s.data⟩

/-- The local working-copy path derived for an `org/repo` identifier:
`format!("{}{}", BASE_PATH, org_and_repo_name.replace('/', "__"))`. -/
def localRepoPathFor (orgAndRepo : String) : String :=
  basePath ++ replaceSlashes orgAndRepo

/-- A string free of underscores, character by character. -/
def noUnderscoreIn (s : String) : Bool :=
  s.data.all (fun c => !(c == '_'))

theorem replaceSlashChars_ne_nil (c : Char) (l : List Char) :
    replaceSlashChars (c :: l) ≠ [] := by
  by_cases h : c = '/' <;> simp [replaceSlashChars, h]

theorem replaceSlashChars_inj (l₁ l₂ : List Char)
    (h₁ : '_' ∉ l₁) (h₂ : '_' ∉ l₂)
    (heq : replaceSlashChars l₁ = replaceSlashChars l₂) : l₁ = l₂ := by
  induction l₁ generalizing l₂ with
  | nil =>
    cases l₂ with
    | nil => rfl
    | cons b m => exact absurd heq.symm (replaceSlashChars_ne_nil b m)
  | cons a l ih =>
    cases l₂ with
    | nil => exact absurd heq (replaceSlashChars_ne_nil a l)
    | cons b m =>
      have ha : a ≠ '_' := fun he => h₁ (he ▸ List.mem_cons_self a l)
      have hb : b ≠ '_' := fun he => h₂ (he ▸ List.mem_cons_self b m)
      have hl : '_' ∉ l := fun hm => h₁ (List.mem_cons_of_mem a hm)
      have hm : '_' ∉ m := fun hmm => h₂ (List.mem_cons_of_mem b hmm)
      by_cases hsa : a = '/' <;> by_cases hsb : b = '/'
      · subst hsa; subst hsb
        simp only [replaceSlashChars, if_pos rfl, List.cons_append, List.nil_append,
          List.cons.injEq, true_and, if_true] at heq
        exact congrArg (fun t => '/' :: t) (ih m hl hm heq)
      · exfalso
        simp [replaceSlashChars, hsa, hsb] at heq
        exact hb heq.1.symm
      · exfalso
        simp [replaceSlashChars, hsa, hsb] at heq
        exact ha heq.1
      · simp [replaceSlashChars, hsa, hsb] at heq
        exact heq.1 ▸ congrArg (fun t => a :: t) (ih m hl hm heq.2)

theorem localRepoPathFor_inj (s₁ s₂ : String)
    (h₁ : noUnderscoreIn s₁ = true) (h₂ : noUnderscoreIn s₂ = true)
    (heq : localRepoPathFor s₁ = localRepoPathFor s₂) : s₁ = s₂ := by
  have hdata : (basePath ++ replaceSlashes s₁).data = (basePath ++ replaceSlashes s₂).data :=
    congrArg String.data heq
  rw [String.data_append, String.data_append] at hdata
  have hrep : (replaceSlashes s₁).data = (replaceSlashes s₂).data :=
    List.append_cancel_left hdata
  have hu₁ : '_' ∉ s₁.data := by
    intro hm
    have := List.all_eq_true.mp h₁ _ hm
    simp at this
  have hu₂ : '_' ∉ s₂.data := by
    intro hm
    have := List.all_eq_true.mp h₂ _ hm
    simp at this
  exact String.ext (replaceSlashChars_inj s₁.data s₂.data hu₁ hu₂ hrep)

/- ### URL normalization helpers -/

/-- Does the URL start with the HTTPS GitHub head?  Embedding of
`repository.starts_with(GITHUB_PREFIX)`. -/
def startsWithGithub (s : String) : Bool :=
  githubHttpsBase.data.isPrefixOf s.data

/-- Embedding of `repo_path.strip_prefix(GITHUB_PREFIX)`. -/
def stripGithub (s : String) : Option String :=
  if githubHttpsBase.data.isPrefixOf s.data then
    some ⟨s.data.drop githubHttpsBase.data.length⟩
  else
    none

/-- Embedding of `trim_end_matches('/')`: drop every trailing slash. -/
def trimEndSlashes (s : String) : String :=
  ⟨(s.data.reverse.dropWhile (fun c => c == '/')).reverse⟩

/-- Fuelled worker for `trim_end_matches(".git")`: repeatedly strip the
suffix while it is present (each step removes at least one character, so
`s.length` fuel suffices). -/
def dropSuffixFuel (pat : List Char) : Nat → List Char → List Char
  | 0, s => s
  | Nat.succ fuel, s =>
    if pat ≠ [] ∧ pat.isSuffixOf s then
      dropSuffixFuel pat fuel (s.take (s.length - pat.length))
    else s

/-- Embedding of `str::trim_end_matches(&str)`. -/
def dropSuffixAll (pat : String) (s : String) : String :=
  ⟨dropSuffixFuel pat.data s.data.length s.data⟩

/- ### The orchestrator (`process_github_repo`) and its environment -/

/-- One external action performed by the orchestrator, in order. -/
inductive Act where
  | fetch
  | clone
  | semverCheck
  | checkout (tag : String)
  | buildS0
  | buildS1
  | buildS1b
  | buildS2
  | buildS2b
  | buildS3
  | move (src dst : String)
deriving DecidableEq

/-- Result of the first (unchecked) `cargo rustdoc` invocation: exit status
plus captured stderr, Rust's `explicit_pkg_build`. -/
structure BuildResult where
  success : Bool
  stderr : String

/-- Scripted responses of every external collaborator touched while
processing one package.  Each field is the outcome the corresponding
blocking invocation would produce. -/
structure Env where
  localRepoExists : Bool
  fetchResult : Except String Unit
  cloneResult : Except String Unit
  tagQuery : String → Except String String
  semverResult : Except String Unit
  checkoutResult : Except String Unit
  explicitPkgBuild : BuildResult
  implicitAllBuild : Except String Unit
  noPkgDefaultBuild : Except String Unit
  libAllBuild : Except String Unit
  libDefaultBuild : Except String Unit
  pkgDefaultBuild : Except String Unit
  mvResult : Except String Unit

/-- Boolean error test on a collaborator outcome. -/
def isErr : Except String Unit → Bool
  | Except.error _ => true
  | Except.ok _ => false

/-- Embedding of the repo-acquisition step: `git fetch` when the local copy
exists, `git clone` otherwise. -/
def acquireResult (env : Env) : Except String Unit :=
  if env.localRepoExists then env.fetchResult else env.cloneResult

/-- Embedding of the build section of `process_github_repo` (lines 104-217):
the default strategy runs first; on a failed exit status the fallback branch
is picked by substring checks on the captured stderr, and the two
all-features retries fall back to default features when the retry invocation
itself errors.  Returns the invocation trace and the section's result. -/
def attemptBuilds (env : Env) : List Act × Except String Unit :=
  if env.explicitPkgBuild.success then
    ([Act.buildS0], Except.ok ())
  else
    if rustContains env.explicitPkgBuild.stderr "ambiguous" then
      match env.implicitAllBuild with
      | Except.ok _ => ([Act.buildS0, Act.buildS1], Except.ok ())
      | Except.error _ =>
        ([Act.buildS0, Act.buildS1, Act.buildS1b], env.noPkgDefaultBuild)
    else
      if rustContains env.explicitPkgBuild.stderr "--lib"
          && rustContains env.explicitPkgBuild.stderr "single target" then
        match env.libAllBuild with
        | Except.ok _ => ([Act.buildS0, Act.buildS2], Except.ok ())
        | Except.error _ =>
          ([Act.buildS0, Act.buildS2, Act.buildS2b], env.libDefaultBuild)
      else
        ([Act.buildS0, Act.buildS3], env.pkgDefaultBuild)

/-- Package record from the registry query (the fields of `crates_io_api::Crate`
that the program reads). -/
structure CrateInfo where
  name : String
  max_version : String
  repository : Option String

/-- Embedding of `process_github_repo`: returns the ordered trace of external
actions performed and the function's `anyhow::Result<()>`.  The `expect` on a
non-GitHub URL is modelled as an error result (the caller guards it). -/
def process_github_repo (env : Env) (crate : CrateInfo) (repoUrl : String)
    (check_semver : Bool) : List Act × Except String Unit :=
  match stripGithub repoUrl with
  | none => ([], Except.error "invalid prefix")
  | some stripped =>
    let org_and_repo_name := dropSuffixAll ".git" (trimEndSlashes stripped)
    let repo_name := replaceSlashes org_and_repo_name
    let local_repo_path := basePath ++ repo_name
    let acquireTrace := if env.localRepoExists then [Act.fetch] else [Act.clone]
    match acquireResult env with
    | Except.error e => (acquireTrace, Except.error e)
    | Except.ok _ =>
      match discover_tag_format env.tagQuery crate.name crate.max_version with
      | none => (acquireTrace, Except.ok ())
      | some tag_name =>
        let semverTrace := if check_semver then [Act.semverCheck] else []
        let preTrace := acquireTrace ++ semverTrace ++ [Act.checkout tag_name]
        match env.checkoutResult with
        | Except.error e => (preTrace, Except.error e)
        | Except.ok _ =>
          let builds := attemptBuilds env
          match builds.2 with
          | Except.error e => (preTrace ++ builds.1, Except.error e)
          | Except.ok _ =>
            let underscored_crate_name := replaceDashes crate.name
            let src := local_repo_path ++ "/target/doc/" ++ underscored_crate_name ++ ".json"
            let dst := "./localdata/rustdocs/" ++ underscored_crate_name ++ "-"
              ++ crate.max_version ++ ".json"
            (preTrace ++ builds.1 ++ [Act.move src dst],
              match env.mvResult with
              | Except.error e => Except.error e
              | Except.ok _ => Except.ok ())

/- ### The batch loop (`main`) -/

/-- Per-crate body of the batch loop: a crate without repository information
or with a non-GitHub repository is skipped with a log line; a processing
error is pushed as one failure record `(crate_info, e)`. -/
def handleCrate (envOf : CrateInfo → Env) (c : CrateInfo) : List (CrateInfo × String) :=
  match c.repository with
  | some repository =>
    if startsWithGithub repository then
      match (process_github_repo (envOf c) c repository false).2 with
      | Except.error e => [(c, e)]
      | Except.ok _ => []
    else []
  | none => []

/-- Embedding of the `failures` accumulation loop in `main`. -/
def runBatch (envOf : CrateInfo → Env) (crates : List CrateInfo) :
    List (CrateInfo × String) :=
  crates.foldl (fun failures c => failures ++ handleCrate envOf c) []

/-- One line of the failure report:
`"*** {} - {} failed:\n{}"` with name, max version and error text. -/
def formatFailure (c : CrateInfo) (e : String) : String :=
  "*** " ++ c.name ++ " - " ++ c.max_version ++ " failed:\n" ++ e

/-- Collaborator responses consumed directly by `main`. -/
structure MainEnv where
  perCrate : CrateInfo → Env
  registryResult : Except String (List CrateInfo)
  createLogResult : Except String Unit
  writeLineResult : Except String Unit

/-- The report-writing loop: one `writeln!` per failure record, each of which
may fail with an I/O error that aborts `main`. -/
def writeFailures (wr : Except String Unit) :
    List (CrateInfo × String) → Except String Unit
  | [] => Except.ok ()
  | _ :: rest =>
    match wr with
    | Except.error e => Except.error e
    | Except.ok _ => writeFailures wr rest

/-- Embedding of `main`: query the registry, run every crate through
`process_github_repo` collecting failure records, then create the error log
and write one line per record. -/
def runMain (menv : MainEnv) : Except String Unit :=
  match menv.registryResult with
  | Except.error e => Except.error e
  | Except.ok crates =>
    let failures := runBatch menv.perCrate crates
    match menv.createLogResult with
    | Except.error e => Except.error e
    | Except.ok _ => writeFailures menv.writeLineResult failures

/- ### Act classifiers and trace helper lemmas -/

/-- Is this action a documentation-build invocation? -/
def isBuildAct : Act → Bool
  | Act.buildS0 => true
  | Act.buildS1 => true
  | Act.buildS1b => true
  | Act.buildS2 => true
  | Act.buildS2b => true
  | Act.buildS3 => true
  | _ => false

/-- Is this action a `git checkout`? -/
def isCheckoutAct : Act → Bool
  | Act.checkout _ => true
  | _ => false

/-- Is this action an artifact relocation (`mv`)? -/
def isMoveAct : Act → Bool
  | Act.move _ _ => true
  | _ => false

/-- The same scripted environment for every crate of a batch. -/
def constEnv (env : Env) : CrateInfo → Env :=
  fun _ => env

theorem attemptBuilds_trace_cases (env : Env) :
    (attemptBuilds env).1 = [Act.buildS0] ∨
    (attemptBuilds env).1 = [Act.buildS0, Act.buildS1] ∨
    (attemptBuilds env).1 = [Act.buildS0, Act.buildS1, Act.buildS1b] ∨
    (attemptBuilds env).1 = [Act.buildS0, Act.buildS2] ∨
    (attemptBuilds env).1 = [Act.buildS0, Act.buildS2, Act.buildS2b] ∨
    (attemptBuilds env).1 = [Act.buildS0, Act.buildS3] := by
  cases hs : env.explicitPkgBuild.success <;>
    cases hamb : rustContains env.explicitPkgBuild.stderr "ambiguous" <;>
    cases hlib : rustContains env.explicitPkgBuild.stderr "--lib"
        && rustContains env.explicitPkgBuild.stderr "single target" <;>
    cases him : env.implicitAllBuild <;>
    cases hlb : env.libAllBuild <;>
    simp [attemptBuilds, hs, hamb, hlib, him, hlb]

theorem attemptBuilds_no_checkout (env : Env) :
    (attemptBuilds env).1.filter isCheckoutAct = [] := by
  rcases attemptBuilds_trace_cases env with h | h | h | h | h | h <;> rw [h] <;> rfl

theorem attemptBuilds_S0_mem (env : Env) :
    Act.buildS0 ∈ (attemptBuilds env).1 := by
  rcases attemptBuilds_trace_cases env with h | h | h | h | h | h <;> rw [h] <;> simp

/-- C2: for every failed default build attempt, the fallback is selected by
ordered literal substring checks on the diagnostic text alone: `"ambiguous"`
selects the implicit-package fallback S1 regardless of any other markers;
otherwise the `"--lib"`/`"single target"` pair selects the library-only
fallback S2; otherwise the generic default-features fallback S3 runs. -/
theorem fallback_selected_by_diagnostic_text (env : Env)
    (hfail : env.explicitPkgBuild.success = false) :
    (rustContains env.explicitPkgBuild.stderr "ambiguous" = true →
      Act.buildS1 ∈ (attemptBuilds env).1 ∧ Act.buildS2 ∉ (attemptBuilds env).1 ∧
        Act.buildS2b ∉ (attemptBuilds env).1 ∧ Act.buildS3 ∉ (attemptBuilds env).1) ∧
    (rustContains env.explicitPkgBuild.stderr "ambiguous" = false →
      rustContains env.explicitPkgBuild.stderr "--lib" = true →
      rustContains env.explicitPkgBuild.stderr "single target" = true →
      Act.buildS2 ∈ (attemptBuilds env).1 ∧ Act.buildS1 ∉ (attemptBuilds env).1 ∧
        Act.buildS1b ∉ (attemptBuilds env).1 ∧ Act.buildS3 ∉ (attemptBuilds env).1) ∧
    (rustContains env.explicitPkgBuild.stderr "ambiguous" = false →
      (rustContains env.explicitPkgBuild.stderr "--lib"
        && rustContains env.explicitPkgBuild.stderr "single target") = false →
      Act.buildS3 ∈ (attemptBuilds env).1 ∧ Act.buildS1 ∉ (attemptBuilds env).1 ∧
        Act.buildS1b ∉ (attemptBuilds env).1 ∧ Act.buildS2 ∉ (attemptBuilds env).1 ∧
        Act.buildS2b ∉ (attemptBuilds env).1) := by
  refine ⟨?_, ?_, ?_⟩
  · intro hamb
    cases him : env.implicitAllBuild <;> simp [attemptBuilds, hfail, hamb, him]
  · intro hamb hl ht
    cases hlb : env.libAllBuild <;> simp [attemptBuilds, hfail, hamb, hl, ht, hlb]
  · intro hamb hlib
    simp [attemptBuilds, hfail, hamb, hlib]

/-- Environment for a failed default build whose stderr carries every marker,
with all retries succeeding. -/
def ambEnv : Env :=
  ⟨true, Except.ok (), Except.ok (), healthyTagQuery ["v1.0.0"], Except.ok (),
    Except.ok (), ⟨false, "error: ambiguous package, try --lib on the single target"⟩,
    Except.ok (), Except.ok (), Except.ok (), Except.ok (), Except.ok (), Except.ok ()⟩

theorem fallback_selected_by_diagnostic_text_witness :
    Act.buildS1 ∈ (attemptBuilds ambEnv).1 ∧ Act.buildS2 ∉ (attemptBuilds ambEnv).1 ∧
      Act.buildS2b ∉ (attemptBuilds ambEnv).1 ∧ Act.buildS3 ∉ (attemptBuilds ambEnv).1 :=
  (fallback_selected_by_diagnostic_text ambEnv rfl).1 (by decide)

/-- C7: for every failed default attempt exactly one fallback branch runs (the
build trace is one of six fixed shapes, never mixing S1, S2 and S3 actions),
and the default-features sub-fallbacks S1b and S2b are triggered solely by the
respective all-features retry invocation erroring, with no inspection of the
retry's diagnostic text. -/
theorem single_fallback_branch (env : Env) :
    ((attemptBuilds env).1 = [Act.buildS0] ∨
      (attemptBuilds env).1 = [Act.buildS0, Act.buildS1] ∨
      (attemptBuilds env).1 = [Act.buildS0, Act.buildS1, Act.buildS1b] ∨
      (attemptBuilds env).1 = [Act.buildS0, Act.buildS2] ∨
      (attemptBuilds env).1 = [Act.buildS0, Act.buildS2, Act.buildS2b] ∨
      (attemptBuilds env).1 = [Act.buildS0, Act.buildS3]) ∧
    (Act.buildS1b ∈ (attemptBuilds env).1 ↔
      env.explicitPkgBuild.success = false ∧
        rustContains env.explicitPkgBuild.stderr "ambiguous" = true ∧
        isErr env.implicitAllBuild = true) ∧
    (Act.buildS2b ∈ (attemptBuilds env).1 ↔
      env.explicitPkgBuild.success = false ∧
        rustContains env.explicitPkgBuild.stderr "ambiguous" = false ∧
        (rustContains env.explicitPkgBuild.stderr "--lib"
          && rustContains env.explicitPkgBuild.stderr "single target") = true ∧
        isErr env.libAllBuild = true) := by
  refine ⟨attemptBuilds_trace_cases env, ?_, ?_⟩ <;>
    cases hs : env.explicitPkgBuild.success <;>
    cases hamb : rustContains env.explicitPkgBuild.stderr "ambiguous" <;>
    cases hlib : rustContains env.explicitPkgBuild.stderr "--lib"
        && rustContains env.explicitPkgBuild.stderr "single target" <;>
    cases him : env.implicitAllBuild <;>
    cases hlb : env.libAllBuild <;>
    simp [attemptBuilds, hs, hamb, hlib, him, hlb, isErr]

/-- C1: against a healthy repository with tag set `tags`, TagResolver tries
the candidates in exactly the order `[v, "v"+v, p+"-"+v, p+"-v"+v]` and
returns the first candidate present in the tag set; `none` ("no tag found",
not an error) when no candidate is present. -/
theorem tag_resolver_order_and_first_match (tags : List String) (p v : String) :
    discover_tag_format (healthyTagQuery tags) p v
      = List.find? (fun t => decide (t ∈ tags))
          [v, "v" ++ v, p ++ "-" ++ v, p ++ "-v" ++ v] :=
  discoverLoop_healthy tags [v, "v" ++ v, p ++ "-" ++ v, p ++ "-v" ++ v]

/-- C3 counterexample: when every repository query fails (a corrupted local
copy), `discover_tag_format` returns `none` — the "no tag found" outcome —
instead of surfacing an infrastructure error; its return type has no error
channel at all.  This refutes the claim that a query failure is never
converted into "no tag found". -/
theorem query_failure_reported_as_no_tag :
    discover_tag_format failingTagQuery "foo" "1.0.0" = none := rfl

/-- C3 amended: a failure of the underlying repository query is silently
treated as the candidate being absent: `discover_tag_format` behaves
identically whether a query fails or succeeds with an empty listing, and so a
failing repository yields "no tag found" rather than an error. -/
theorem query_failure_treated_as_absent (runTagList : String → Except String String)
    (p v : String) :
    discover_tag_format runTagList p v
      = discover_tag_format (maskTagQueryFailures runTagList) p v := by
  show discoverLoop runTagList _ = discoverLoop (maskTagQueryFailures runTagList) _
  generalize [v, "v" ++ v, p ++ "-" ++ v, p ++ "-v" ++ v] = cands
  induction cands with
  | nil => rfl
  | cons t rest ih =>
    have hne : t.data ++ ['\n'] ≠ [] := by simp
    have hf : rustContains "" (t ++ "\n") = false := by
      simpa [rustContains, String.data_append] using hasSub_nil _ hne
    cases hq : runTagList t with
    | error e =>
      simp [discoverLoop, check_if_git_tag_exists, maskTagQueryFailures, hq, hf, ih]
    | ok s =>
      cases hrc : rustContains s (t ++ "\n") <;>
        simp [discoverLoop, check_if_git_tag_exists, maskTagQueryFailures, hq, hrc, ih]

/-- C4: a candidate matches only as a whole tag name; any tag set not
containing the candidate itself — in particular one holding only strict
superstrings of it, like tag `"1.2.30"` for candidate `"1.2.3"` — yields a
definite non-match, not an error. -/
theorem exact_whole_name_tag_match (tags : List String) (cand : String)
    (h : cand ∉ tags) :
    check_if_git_tag_exists (healthyTagQuery tags) cand = Except.ok false := by
  rw [check_healthy_eq]
  simp [h]

theorem exact_whole_name_tag_match_witness :
    "1.2.3" ∉ (["1.2.30"] : List String) ∧
      check_if_git_tag_exists (healthyTagQuery ["1.2.30"]) "1.2.3" = Except.ok false :=
  ⟨by decide, exact_whole_name_tag_match ["1.2.30"] "1.2.3" (by decide)⟩

/-- C8 counterexample: the `org/repo → local path` mapping is not
collision-free on all identifier pairs: the distinct identifiers `a/b__c` and
`a__b/c` are both sent to `/var/tmp/crates-rustdoc-gen/a__b__c`, because
replacing `/` by `__` is not injective when identifiers may contain
underscores. -/
theorem repo_path_collision :
    ("a/b__c" : String) ≠ "a__b/c"
      ∧ localRepoPathFor "a/b__c" = localRepoPathFor "a__b/c" :=
  ⟨by decide, rfl⟩

/-- C8 amended: the mapping from an organization/repository identifier to the
local filesystem path is deterministic (a pure function of the identifier),
and it is collision-free for identifiers containing no underscore — for every
pair of distinct underscore-free identifiers the derived paths differ.  (With
underscores allowed, collisions such as `a/b__c` vs `a__b/c` exist.) -/
theorem repo_path_collision_free_without_underscores (s₁ s₂ : String)
    (h₁ : noUnderscoreIn s₁ = true) (h₂ : noUnderscoreIn s₂ = true)
    (hne : s₁ ≠ s₂) : localRepoPathFor s₁ ≠ localRepoPathFor s₂ :=
  fun heq => hne (localRepoPathFor_inj s₁ s₂ h₁ h₂ heq)

theorem repo_path_collision_free_without_underscores_witness :
    localRepoPathFor "obi1kenobi/crates-rustdoc-gen" ≠ localRepoPathFor "rust-lang/rust" :=
  repo_path_collision_free_without_underscores "obi1kenobi/crates-rustdoc-gen"
    "rust-lang/rust" (by decide) (by decide) (by decide)

/- ### Orchestrator-level lemmas -/

theorem startsWithGithub_of_strip (s r : String) (h : stripGithub s = some r) :
    startsWithGithub s = true := by
  by_cases hp : githubHttpsBase.data.isPrefixOf s.data
  · simpa [startsWithGithub] using hp
  · simp [stripGithub, hp] at h

/-- C5: when TagResolver finds no tag, `process_github_repo` returns success
with no artifact: the result is `Ok`, the trace contains no checkout, no
build-strategy invocation and no relocation, and the batch loop records no
failure for that package. -/
theorem no_tag_found_success_without_artifact (env : Env) (crate : CrateInfo)
    (repoUrl stripped : String) (cs : Bool)
    (h0 : stripGithub repoUrl = some stripped)
    (h1 : acquireResult env = Except.ok ())
    (h2 : discover_tag_format env.tagQuery crate.name crate.max_version = none)
    (h3 : crate.repository = some repoUrl) :
    (process_github_repo env crate repoUrl cs).2 = Except.ok () ∧
    (process_github_repo env crate repoUrl cs).1.filter isCheckoutAct = [] ∧
    (process_github_repo env crate repoUrl cs).1.filter isBuildAct = [] ∧
    (process_github_repo env crate repoUrl cs).1.filter isMoveAct = [] ∧
    handleCrate (constEnv env) crate = [] := by
  have hres : ∀ b : Bool, process_github_repo env crate repoUrl b
      = ((if env.localRepoExists then [Act.fetch] else [Act.clone]), Except.ok ()) := by
    intro b
    simp [process_github_repo, h0, h1, h2]
  refine ⟨?_, ?_, ?_, ?_, ?_⟩
  · rw [hres]
  · rw [hres]; cases env.localRepoExists <;> rfl
  · rw [hres]; cases env.localRepoExists <;> rfl
  · rw [hres]; cases env.localRepoExists <;> rfl
  · simp [handleCrate, h3, startsWithGithub_of_strip _ _ h0, constEnv, hres false]

/-- A crate record as the registry would supply it. -/
def demoCrate : CrateInfo := ⟨"demo", "1.0.0", some "https://github.com/org/demo"⟩

/-- Healthy environment whose repository has no tags at all. -/
def noTagEnv : Env :=
  ⟨true, Except.ok (), Except.ok (), healthyTagQuery [], Except.ok (), Except.ok (),
    ⟨true, ""⟩, Except.ok (), Except.ok (), Except.ok (), Except.ok (), Except.ok (),
    Except.ok ()⟩

theorem no_tag_found_success_without_artifact_witness :
    (process_github_repo noTagEnv demoCrate "https://github.com/org/demo" false).2
        = Except.ok () ∧
    (process_github_repo noTagEnv demoCrate
        "https://github.com/org/demo" false).1.filter isCheckoutAct = [] ∧
    (process_github_repo noTagEnv demoCrate
        "https://github.com/org/demo" false).1.filter isBuildAct = [] ∧
    (process_github_repo noTagEnv demoCrate
        "https://github.com/org/demo" false).1.filter isMoveAct = [] ∧
    handleCrate (constEnv noTagEnv) demoCrate = [] :=
  no_tag_found_success_without_artifact noTagEnv demoCrate
    "https://github.com/org/demo" "org/demo" false rfl rfl rfl rfl

/-- C9: whenever a tag was resolved, the trace of `process_github_repo`
contains exactly one checkout — of the resolved tag — and no build-strategy
invocation precedes it or performs any further checkout: the checked-out
revision is fixed before any build strategy runs and no build changes it. -/
theorem checkout_once_before_builds (env : Env) (crate : CrateInfo)
    (repoUrl stripped tag : String) (cs : Bool)
    (h0 : stripGithub repoUrl = some stripped)
    (h1 : acquireResult env = Except.ok ())
    (h2 : discover_tag_format env.tagQuery crate.name crate.max_version = some tag) :
    (process_github_repo env crate repoUrl cs).1.filter isCheckoutAct
        = [Act.checkout tag] ∧
    ((process_github_repo env crate repoUrl cs).1.takeWhile
        (fun a => !(isCheckoutAct a))).filter isBuildAct = [] := by
  cases hl : env.localRepoExists <;> cases cs <;>
    cases hco : env.checkoutResult <;> cases hb2 : (attemptBuilds env).2 <;>
    constructor <;>
    simp [process_github_repo, h0, h1, h2, hco, hb2, hl, List.filter_append,
      attemptBuilds_no_checkout, isCheckoutAct, isBuildAct, List.takeWhile]

/-- Healthy environment whose repository carries the tag `v1.0.0` and whose
default build and relocation succeed. -/
def okBuildEnv : Env :=
  ⟨true, Except.ok (), Except.ok (), healthyTagQuery ["v1.0.0"], Except.ok (),
    Except.ok (), ⟨true, ""⟩, Except.ok (), Except.ok (), Except.ok (), Except.ok (),
    Except.ok (), Except.ok ()⟩

theorem checkout_once_before_builds_witness :
    (process_github_repo okBuildEnv demoCrate
        "https://github.com/org/demo" false).1.filter isCheckoutAct
      = [Act.checkout "v1.0.0"] ∧
    ((process_github_repo okBuildEnv demoCrate
        "https://github.com/org/demo" false).1.takeWhile
        (fun a => !(isCheckoutAct a))).filter isBuildAct = [] :=
  checkout_once_before_builds okBuildEnv demoCrate "https://github.com/org/demo"
    "org/demo" "v1.0.0" false rfl rfl rfl

/-- Environment identical to `okBuildEnv` except that the artifact relocation
(`mv`) fails. -/
def mvFailEnv : Env :=
  ⟨true, Except.ok (), Except.ok (), healthyTagQuery ["v1.0.0"], Except.ok (),
    Except.ok (), ⟨true, ""⟩, Except.ok (), Except.ok (), Except.ok (), Except.ok (),
    Except.ok (), Except.error "mv: cannot stat output"⟩

/-- C10: when a build (default or fallback) succeeds but relocating the
produced artifact fails, `process_github_repo` returns the relocation error —
even though documentation was generated (the trace holds a build invocation) —
and the batch loop records exactly one failure for the package. -/
theorem relocation_failure_is_package_failure (env : Env) (crate : CrateInfo)
    (repoUrl stripped tag e : String) (cs : Bool)
    (h0 : stripGithub repoUrl = some stripped)
    (h1 : acquireResult env = Except.ok ())
    (h2 : discover_tag_format env.tagQuery crate.name crate.max_version = some tag)
    (h3 : env.checkoutResult = Except.ok ())
    (h4 : (attemptBuilds env).2 = Except.ok ())
    (h5 : env.mvResult = Except.error e)
    (h6 : crate.repository = some repoUrl) :
    (process_github_repo env crate repoUrl cs).2 = Except.error e ∧
    Act.buildS0 ∈ (process_github_repo env crate repoUrl cs).1 ∧
    handleCrate (constEnv env) crate = [(crate, e)] := by
  have hres : ∀ b : Bool, (process_github_repo env crate repoUrl b).2 = Except.error e := by
    intro b
    simp [process_github_repo, h0, h1, h2, h3, h4, h5]
  refine ⟨hres cs, ?_, ?_⟩
  · have hmem := attemptBuilds_S0_mem env
    simp [process_github_repo, h0, h1, h2, h3, h4, h5, hmem]
  · simp [handleCrate, h6, startsWithGithub_of_strip _ _ h0, constEnv, hres false]

theorem relocation_failure_is_package_failure_witness :
    (process_github_repo mvFailEnv demoCrate
        "https://github.com/org/demo" false).2 = Except.error "mv: cannot stat output" ∧
    Act.buildS0 ∈ (process_github_repo mvFailEnv demoCrate
        "https://github.com/org/demo" false).1 ∧
    handleCrate (constEnv mvFailEnv) demoCrate
      = [(demoCrate, "mv: cannot stat output")] :=
  relocation_failure_is_package_failure mvFailEnv demoCrate
    "https://github.com/org/demo" "org/demo" "v1.0.0" "mv: cannot stat output" false
    rfl rfl rfl rfl rfl rfl rfl

/- ### Batch-loop lemmas -/

theorem runBatch_foldl_init (envOf : CrateInfo → Env) (l : List CrateInfo)
    (init : List (CrateInfo × String)) :
    l.foldl (fun failures c => failures ++ handleCrate envOf c) init
      = init ++ runBatch envOf l := by
  induction l generalizing init with
  | nil => simp [runBatch]
  | cons c l ih =>
    show l.foldl _ (init ++ handleCrate envOf c) = _
    rw [ih]
    have hr : runBatch envOf (c :: l) = handleCrate envOf c ++ runBatch envOf l := by
      show l.foldl _ ([] ++ handleCrate envOf c) = _
      rw [ih]
      simp
    rw [hr, List.append_assoc]

theorem runBatch_append (envOf : CrateInfo → Env) (l₁ l₂ : List CrateInfo) :
    runBatch envOf (l₁ ++ l₂) = runBatch envOf l₁ ++ runBatch envOf l₂ := by
  show (l₁ ++ l₂).foldl _ [] = _
  rw [List.foldl_append]
  have h1 : l₁.foldl (fun failures c => failures ++ handleCrate envOf c) []
      = runBatch envOf l₁ := rfl
  rw [h1, runBatch_foldl_init]

theorem writeFailures_ok (l : List (CrateInfo × String)) :
    writeFailures (Except.ok ()) l = Except.ok () := by
  induction l with
  | nil => rfl
  | cons r rest ih => simpa [writeFailures] using ih

/-- C6: a per-package processing error is caught at the batch boundary and
becomes exactly one failure record `(crate, e)`; the batch continues with the
packages after it; the whole run still succeeds as long as the registry query,
the log-file creation and the report writes succeed; and the written report
line contains the package name, its version and the diagnostic text. -/
theorem per_package_failure_containment (menv : MainEnv) (envOf : CrateInfo → Env)
    (pre post : List CrateInfo) (c : CrateInfo) (repoUrl e : String)
    (h3 : c.repository = some repoUrl)
    (h4 : startsWithGithub repoUrl = true)
    (h5 : (process_github_repo (envOf c) c repoUrl false).2 = Except.error e)
    (h6 : menv.registryResult = Except.ok (pre ++ c :: post))
    (h7 : menv.createLogResult = Except.ok ())
    (h8 : menv.writeLineResult = Except.ok ())
    (h9 : menv.perCrate = envOf) :
    handleCrate envOf c = [(c, e)] ∧
    runBatch envOf (pre ++ c :: post)
      = runBatch envOf pre ++ (c, e) :: runBatch envOf post ∧
    runMain menv = Except.ok () ∧
    rustContains (formatFailure c e) c.name = true ∧
    rustContains (formatFailure c e) c.max_version = true ∧
    rustContains (formatFailure c e) e = true := by
  have hone : handleCrate envOf c = [(c, e)] := by
    simp [handleCrate, h3, h4, h5]
  have hsplit : runBatch envOf (pre ++ c :: post)
      = runBatch envOf pre ++ (c, e) :: runBatch envOf post := by
    have hcons : runBatch envOf (c :: post)
        = handleCrate envOf c ++ runBatch envOf post := by
      show post.foldl _ ([] ++ handleCrate envOf c) = _
      rw [runBatch_foldl_init]
      simp
    rw [runBatch_append, hcons, hone]
    simp
  refine ⟨hone, hsplit, ?_, ?_, ?_, ?_⟩
  · simp [runMain, h6, h7, h8, h9, writeFailures_ok]
  · have hshape : formatFailure c e
        = "*** " ++ c.name ++ (" - " ++ c.max_version ++ (" failed:\n" ++ e)) := by
      simp [formatFailure, String.append_assoc]
    rw [hshape]
    exact rustContains_mid "*** " c.name (" - " ++ c.max_version ++ (" failed:\n" ++ e))
  · have hshape : formatFailure c e
        = ("*** " ++ c.name ++ " - ") ++ c.max_version ++ (" failed:\n" ++ e) := by
      simp [formatFailure, String.append_assoc]
    rw [hshape]
    exact rustContains_mid ("*** " ++ c.name ++ " - ") c.max_version (" failed:\n" ++ e)
  · have hmid := rustContains_mid
      ("*** " ++ c.name ++ " - " ++ c.max_version ++ " failed:\n") e ""
    rw [String.append_empty] at hmid
    exact hmid

/-- Environment in which acquiring the repository fails at `git fetch`. -/
def fetchFailEnv : Env :=
  ⟨true, Except.error "fetch failed", Except.ok (), healthyTagQuery [], Except.ok (),
    Except.ok (), ⟨true, ""⟩, Except.ok (), Except.ok (), Except.ok (), Except.ok (),
    Except.ok (), Except.ok ()⟩

/-- A one-crate batch whose single crate fails during repository acquisition. -/
def demoMainEnv : MainEnv :=
  ⟨constEnv fetchFailEnv, Except.ok [demoCrate], Except.ok (), Except.ok ()⟩

theorem per_package_failure_containment_witness :
    handleCrate (constEnv fetchFailEnv) demoCrate = [(demoCrate, "fetch failed")] ∧
    runBatch (constEnv fetchFailEnv) ([] ++ demoCrate :: [])
      = runBatch (constEnv fetchFailEnv) []
          ++ (demoCrate, "fetch failed") :: runBatch (constEnv fetchFailEnv) [] ∧
    runMain demoMainEnv = Except.ok () ∧
    rustContains (formatFailure demoCrate "fetch failed") demoCrate.name = true ∧
    rustContains (formatFailure demoCrate "fetch failed") demoCrate.max_version = true ∧
    rustContains (formatFailure demoCrate "fetch failed") "fetch failed" = true :=
  per_package_failure_containment demoMainEnv (constEnv fetchFailEnv) [] [] demoCrate
    "https://github.com/org/demo" "fetch failed" rfl (by decide) rfl rfl rfl rfl rfl
